import Mathlib

/-!
Verification of the rgmatch output-comparison and geometric-verification
scripts: a shallow embedding of `scripts/compare_outputs.py` and
`scripts/verify_matches.py`, with theorems about the embedded definitions.

Python strings are modelled as `List Char` (`PyStr`) on the `verify_matches.py`
side, where parsing and splitting matter, and as Lean `String` on the
`compare_outputs.py` side, where only concatenation and equality matter.
Python integers are `Int`; Python floor division is `Int.fdiv` and the Python
remainder (with positive modulus) is `Int.emod`, matching Python's semantics.
Fallible Python code (exceptions) is modelled with `Option`: `none` stands for
a raised exception.
-/

set_option autoImplicit false

namespace RGMatch

/-- Python strings on the `verify_matches.py` side, as lists of characters.
Lines read from a file are modelled without their trailing newline. -/
abbrev PyStr := List Char

/-! ## String primitives (Python `str` methods used by the scripts) -/

/-- Python whitespace characters recognised by `str.strip()`. -/
def isPySpace (c : Char) : Bool :=
  c = ' ' || c = '\t' || c = '\n' || c = '\x0d' || c = '\x0b' || c = '\x0c'

/-- Python `s.strip()`: drop leading and trailing whitespace. -/
def pyStrip (s : PyStr) : PyStr :=
  ((s.dropWhile isPySpace).reverse.dropWhile isPySpace).reverse

/-- Python `s.split(sep)` for a one-character separator: `''.split(c) = ['']`. -/
def splitChar (c : Char) : PyStr → List PyStr
  | [] => [[]]
  | x :: xs =>
    if x = c then [] :: splitChar c xs
    else
      match splitChar c xs with
      | [] => [[x]]
      | p :: ps => (x :: p) :: ps

/-- Does `p` occur at the start of `s`? (helper for the Python `in` operator). -/
def startsList : PyStr → PyStr → Bool
  | [], _ => true
  | _ :: _, [] => false
  | p :: ps, s :: ss => p = s && startsList ps ss

/-- Python `p in s`: substring containment. -/
def hasSub (p : PyStr) : PyStr → Bool
  | [] => startsList p []
  | s :: ss => startsList p (s :: ss) || hasSub p ss

/-- Decimal digit value of a character, if it is a digit. -/
def digitVal (c : Char) : Option Nat :=
  if '0' ≤ c ∧ c ≤ '9' then some (c.toNat - '0'.toNat) else none

/-- Accumulating decimal parser over a digit string. -/
def parseNatAux : PyStr → Nat → Option Nat
  | [], acc => some acc
  | c :: cs, acc =>
    match digitVal c with
    | some d => parseNatAux cs (acc * 10 + d)
    | none => none

/-- Parse a non-empty string of decimal digits. -/
def parseNat (s : PyStr) : Option Nat :=
  if s = [] then none else parseNatAux s 0

/-- Python `int(s)` on a canonical integer literal: optional sign, then decimal
digits; `none` models the raised `ValueError`. (Python additionally tolerates
surrounding whitespace and digit-group underscores, which the scripts' data
never contains.) -/
def parseIntPy (s : PyStr) : Option Int :=
  match s with
  | '-' :: rest => (parseNat rest).map (fun n => -(n : Int))
  | '+' :: rest => (parseNat rest).map (fun n => (n : Int))
  | _ => (parseNat s).map (fun n => (n : Int))

/-- Split at the first occurrence of `c`: `some (before, after)`, or `none`
when `c` does not occur. -/
def breakAtChar (c : Char) : PyStr → Option (PyStr × PyStr)
  | [] => none
  | x :: xs =>
    if x = c then some ([], xs)
    else (breakAtChar c xs).map (fun p => (x :: p.1, p.2))

/-- Python `s.rsplit('_', 2)`: split off at most two fields from the right. -/
def rsplitUnderscore2 (s : PyStr) : List PyStr :=
  match breakAtChar '_' s.reverse with
  | none => [s]
  | some (lastRev, rest) =>
    match breakAtChar '_' rest with
    | none => [rest.reverse, lastRev.reverse]
    | some (midRev, preRev) => [preRev.reverse, midRev.reverse, lastRev.reverse]

/-! ## `verify_matches.py` -/

/-- Result of `parse_region`: the dict `{'chrom', 'start', 'end', 'midpoint'}`. -/
structure Region where
  chrom : PyStr
  start : Int
  «end» : Int
  midpoint : Int
  deriving DecidableEq, Repr

/-- Function `parse_region(region_str)`: `region_str.rsplit('_', 2)`, the last two fields
read as integers, midpoint by floor division. `none` models the `IndexError`
(fewer than three parts) or `ValueError` (non-integer field) Python would raise. -/
def parse_region (s : PyStr) : Option Region :=
  match rsplitUnderscore2 s with
  | [c, p1, p2] =>
    match parseIntPy p1, parseIntPy p2 with
    | some a, some b => some ⟨c, a, b, Int.fdiv (a + b) 2⟩
    | _, _ => none
  | _ => none

/-- The `(gene_start, gene_end, strand)` triple extracted by `get_gene_coords`
from a matching annotation line. -/
structure GeneCoords where
  gene_start : Int
  gene_end : Int
  strand : PyStr
  deriving DecidableEq, Repr

/-- The skip conditions of the `get_gene_coords` loop, combined: the line
contains `gene_id` as a substring, is not a `#` comment, splits (after
`strip()`) into at least 9 tab-separated fields, and its third field is
`gene`. A line passing all four tests triggers the `break`. -/
def lineSelects (gene_id line : PyStr) : Bool :=
  hasSub gene_id line && !(startsList ['#'] line) &&
    (let fields := splitChar '\t' (pyStrip line)
     9 ≤ fields.length && fields.getD 2 [] = ['g', 'e', 'n', 'e'])

/-- Extraction from the selected line: `int(fields[3])`, `int(fields[4])`,
`fields[6]`; outer `none` models the `ValueError` on a non-integer field. -/
def extractGene (line : PyStr) : Option (Option GeneCoords) :=
  let fields := splitChar '\t' (pyStrip line)
  match parseIntPy (fields.getD 3 []), parseIntPy (fields.getD 4 []) with
  | some s, some e => some (some ⟨s, e, fields.getD 6 []⟩)
  | _, _ => none

/-- Function `get_gene_coords(gtf_path, gene_id)`: scan the lines, `break` on the first
line passing `lineSelects`, return `(None, None, None)` — modelled `some none`
— when the scan reaches the end of the source. Outer `none` models a raised
exception. -/
def get_gene_coords (lines : List PyStr) (gene_id : PyStr) : Option (Option GeneCoords) :=
  match lines with
  | [] => some none
  | l :: ls =>
    if lineSelects gene_id l then extractGene l
    else get_gene_coords ls gene_id

/-- Result dict of `verify_upstream_downstream`. -/
structure UDResult where
  valid : Bool
  reported_distance : Int
  calculated_distance : Int
  distance_matches : Bool
  within_threshold : Bool
  deriving DecidableEq, Repr

/-- Function `verify_upstream_downstream(region, gene_start, gene_end,
reported_distance, config_distance=10000)`. -/
def verify_upstream_downstream (region : Region) (gene_start gene_end : Int)
    (reported_distance : Int) (config_distance : Int := 10000) : UDResult :=
  let actual_distance : Int :=
    if region.midpoint < gene_start then gene_start - region.midpoint
    else if region.midpoint > gene_end then region.midpoint - gene_end
    else 0
  let is_valid : Bool := reported_distance ≤ config_distance
  let distance_matches : Bool := |actual_distance - reported_distance| ≤ 10
  { valid := is_valid
    reported_distance := reported_distance
    calculated_distance := actual_distance
    distance_matches := distance_matches
    within_threshold := is_valid }

/-- Result dict of `verify_overlap`. -/
structure OverlapResult where
  valid : Bool
  overlaps_gene : Bool
  deriving DecidableEq, Repr

/-- Function `verify_overlap(region, gene_start, gene_end)`. -/
def verify_overlap (region : Region) (gene_start gene_end : Int) : OverlapResult :=
  let overlaps : Bool := region.start < gene_end && region.«end» > gene_start
  { valid := overlaps, overlaps_gene := overlaps }

/-- The two result dict shapes a sample can receive in `main`. -/
inductive VerifyResult where
  | ud (r : UDResult)
  | ov (r : OverlapResult)
  deriving DecidableEq, Repr

/-- Accessor `result['valid']` for either verifier's dict. -/
def VerifyResult.isValid : VerifyResult → Bool
  | .ud r => r.valid
  | .ov r => r.valid

/-- The dispatch in `main`: directional areas go to
`verify_upstream_downstream` (default threshold), everything else to
`verify_overlap`. The looked-up `strand` is in scope at the dispatch but is
passed to neither verifier. -/
def dispatchVerify (region : Region) (coords : GeneCoords) (area : PyStr)
    (distance : Int) : VerifyResult :=
  if area = "UPSTREAM".toList ∨ area = "DOWNSTREAM".toList then
    .ud (verify_upstream_downstream region coords.gene_start coords.gene_end distance)
  else
    .ov (verify_overlap region coords.gene_start coords.gene_end)

/-- Per-sample outcome in `main`: gene not found (the `continue` branch), or a
VALID / INVALID verdict. -/
inductive Outcome where
  | notFound
  | valid
  | invalid
  deriving DecidableEq, Repr

/-- The assignment `distance = int(row[6]) if row[6] else 0`: the empty field is `0`. -/
def distanceField (s : PyStr) : Option Int :=
  if s = [] then some 0 else parseIntPy s

/-- One iteration of the loop in `main` over a tab-split sample row:
`row[0]` is the region id, `row[2]` the gene id, `row[5]` the area,
`row[6]` the distance field. `none` models any raised exception
(short row, unparseable field, unparseable region, annotation error). -/
def processSample (gtf : List PyStr) (row : List PyStr) : Option Outcome :=
  match row.get? 0, row.get? 2, row.get? 5, row.get? 6 with
  | some region_str, some gene_id, some area, some dist_str =>
    match distanceField dist_str with
    | none => none
    | some distance =>
      match parse_region region_str with
      | none => none
      | some region =>
        match get_gene_coords gtf gene_id with
        | none => none
        | some none => some .notFound
        | some (some coords) =>
          some (if (dispatchVerify region coords area distance).isValid then .valid else .invalid)
  | _, _, _, _ => none

/-- The tally `valid_count`: only VALID verdicts are tallied. -/
def validCount (outs : List Outcome) : Nat := outs.count .valid

/-- Count of INVALID verdicts (the records verified and found wanting). -/
def invalidCount (outs : List Outcome) : Nat := outs.count .invalid

/-- The outcomes of `main`'s loop over `samples[:10]`; `none` when any
iteration raises. -/
def processAll (gtf : List PyStr) (samples : List (List PyStr)) : Option (List Outcome) :=
  (samples.take 10).mapM (processSample gtf)

/-- The three printed conclusions of `main`. -/
inductive Conclusion where
  | allValid
  | allInvalid
  | mixed
  deriving DecidableEq, Repr

/-- The final conclusion of `main`: `valid_count == 10` → all-valid message,
`valid_count == 0` → all-invalid message, otherwise mixed. -/
def mainConclusion (gtf : List PyStr) (samples : List (List PyStr)) : Option Conclusion :=
  (processAll gtf samples).map (fun outs =>
    let vc := validCount outs
    if vc = 10 then .allValid else if vc = 0 then .allInvalid else .mixed)

/-! ## `compare_outputs.py` -/

/-- One row of rgmatch output, the 13 positional columns of `COLUMNS`.
Fields are kept as the raw tab-separated strings; only `Region`, `Gene`,
`Transcript` and `Area` feed the derived key. -/
structure MatchRecord where
  Region : String
  Midpoint : String
  Gene : String
  Transcript : String
  ExonIntron : String
  Area : String
  Distance : String
  TSSDistance : String
  PercRegion : String
  PercArea : String
  Col11 : String
  Col12 : String
  Col13 : String
  deriving DecidableEq, Repr

/-- The `_key` column built by `load_output`:
`df["Region"] + "_" + df["Gene"] + "_" + df["Transcript"] + "_" + df["Area"]`. -/
def matchKey (r : MatchRecord) : String :=
  r.Region ++ "_" ++ r.Gene ++ "_" ++ r.Transcript ++ "_" ++ r.Area

/-- Function `load_output`: every parsed row is returned augmented with its `_key`. -/
def load_output (rows : List MatchRecord) : List (MatchRecord × String) :=
  rows.map (fun r => (r, matchKey r))

/-- The key set `set(df["_key"])` for one side. -/
def keySet (rows : List MatchRecord) : Finset String :=
  (rows.map matchKey).toFinset

/-- The difference `rs_keys - py_keys` in `analyze_pair`. -/
def exclusiveKeys (a b : List MatchRecord) : Finset String :=
  keySet a \ keySet b

/-- The intersection `rs_keys & py_keys` in `analyze_pair`. -/
def commonKeys (a b : List MatchRecord) : Finset String :=
  keySet a ∩ keySet b

/-! The stratified sampler of `analyze_pair`:

`rust_only_rows.groupby("Area", group_keys=False).apply(
    lambda x: x.head(max(1, sample_size // x.name.__hash__() % 5 + 1))
 ).head(sample_size)`

`groupby` sorts the distinct `Area` labels, keeps each group's rows in file
order, takes a per-group head whose size is derived from Python's string hash
of the group label (`//` and `%` associate left, so the quota is
`((sample_size // hash(label)) % 5) + 1`), concatenates the groups and
truncates the result to `sample_size` rows. Python's `str.__hash__` is
seed-randomized and unspecified, so it enters the model as an explicit
parameter `h`; `hash(label) = 0` would raise `ZeroDivisionError` in Python
and is not modelled. -/

/-- Lexicographic order on code points, the order `groupby` sorts string
labels by. -/
def lexLe : List Char → List Char → Bool
  | [], _ => true
  | _ :: _, [] => false
  | a :: as, b :: bs => if a = b then lexLe as bs else decide (a < b)

/-- Insertion into a `lexLe`-sorted list of labels. -/
def insertLabel (s : String) : List String → List String
  | [] => [s]
  | x :: xs => if lexLe s.toList x.toList then s :: x :: xs else x :: insertLabel s xs

/-- Sort group labels the way `groupby` does. -/
def sortLabels (l : List String) : List String :=
  l.foldr insertLabel []

/-- The sorted distinct `Area` labels of the grouped frame. -/
def areaGroups (rows : List MatchRecord) : List String :=
  sortLabels (rows.map MatchRecord.Area).dedup

/-- The per-group head size `max(1, sample_size // hash(label) % 5 + 1)`. -/
def groupQuota (sample_size : Int) (h : Int) : Int :=
  max 1 (Int.fdiv sample_size h % 5 + 1)

/-- The sampler of `analyze_pair`: per-`Area` heads, concatenated in sorted
label order, truncated to `sample_size`. -/
def sampleStratified (h : String → Int) (sample_size : Nat)
    (rows : List MatchRecord) : List MatchRecord :=
  ((areaGroups rows).flatMap (fun a =>
      (rows.filter (fun r => r.Area = a)).take (groupQuota sample_size (h a)).toNat)).take
    sample_size

/-! ## Concrete instances used in witnesses and counterexamples -/

/-- A directional match record. -/
def recR1 : MatchRecord :=
  ⟨"chr1_100_200", "150", "GENE1", "TX1", "1", "UPSTREAM", "500", "0", "1.0", "1.0", "0", "0", "0"⟩

/-- An intronic match record with a key distinct from `recR1`'s. -/
def recR2 : MatchRecord :=
  ⟨"chr1_300_400", "350", "GENE2", "TX2", "1", "INTRON", "0", "0", "1.0", "1.0", "0", "0", "0"⟩

/-- A record agreeing with `recR1` on `Region`, `Gene`, `Transcript` and
`Area` but differing in the `Distance` column. -/
def recR1' : MatchRecord :=
  ⟨"chr1_100_200", "150", "GENE1", "TX1", "1", "UPSTREAM", "510", "0", "1.0", "1.0", "0", "0", "0"⟩

/-- First record of sampler category `A_CAT`. -/
def recA1 : MatchRecord :=
  ⟨"chr1_100_200", "150", "G1", "T1", "1", "A_CAT", "5", "0", "1.0", "1.0", "0", "0", "0"⟩

/-- Second record of sampler category `A_CAT`. -/
def recA2 : MatchRecord :=
  ⟨"chr1_300_400", "350", "G2", "T2", "1", "A_CAT", "5", "0", "1.0", "1.0", "0", "0", "0"⟩

/-- The sole record of sampler category `B_CAT`. -/
def recB1 : MatchRecord :=
  ⟨"chr1_500_600", "550", "G3", "T3", "1", "B_CAT", "5", "0", "1.0", "1.0", "0", "0", "0"⟩

/-- A value assignment for Python's seed-randomized string hash under which
every label hashes to `-1` (Python string hashes are 64-bit signed values and
negative ones are common). -/
def negHash : String → Int := fun _ => -1

/-- One annotation line: a 9-field `gene` feature for `GENEX` on [1000, 2000]. -/
def gtfLineX : PyStr :=
  "chr1\tHAVANA\tgene\t1000\t2000\t.\t+\t.\tgene_id GENEX;".toList

/-- A sample row whose region [1500, 1600] overlaps `GENEX`'s span, with area
`GENE_BODY` and an empty distance field. -/
def rowX : List PyStr :=
  ["chr1_1500_1600".toList, "1550".toList, "GENEX".toList, "TX1".toList, "1".toList,
   "GENE_BODY".toList, "".toList]

/-- A sample row naming gene `GENEY`, absent from `gtfLineX`. -/
def rowY : List PyStr :=
  ["chr1_100_200".toList, "150".toList, "GENEY".toList, "TX2".toList, "1".toList,
   "UPSTREAM".toList, "5".toList]

/-! ## Helper lemmas -/

theorem breakAtChar_append (c : Char) (l r : PyStr) (h : c ∉ l) :
    breakAtChar c (l ++ c :: r) = some (l, r) := by
  induction l with
  | nil => simp [breakAtChar]
  | cons x xs ih =>
    have hxc : ¬x = c := fun hx => h (hx ▸ List.mem_cons_self x xs)
    have hxs : c ∉ xs := fun hm => h (List.mem_cons_of_mem x hm)
    simp [breakAtChar, hxc, ih hxs]

theorem get_gene_coords_eq_find (lines : List PyStr) (g : PyStr) :
    get_gene_coords lines g =
      match lines.find? (fun l => lineSelects g l) with
      | none => some none
      | some l => extractGene l := by
  induction lines with
  | nil => rfl
  | cons l ls ih =>
    by_cases h : lineSelects g l
    · simp [get_gene_coords, List.find?, h]
    · simp only [get_gene_coords, h, if_false, ih, List.find?]
      simp [h]

theorem extractGene_ne_some_none (line : PyStr) : extractGene line ≠ some none := by
  simp only [extractGene]
  split <;> simp

/-! ## Claim theorems -/

/-- C2: the directional verifier computes the midpoint-to-nearest-boundary
distance exactly as specified, its `valid` flag is `reported ≤ threshold`
(default 10000), its tolerance flag is `|computed − reported| ≤ 10`; and at
midpoint 500, gene span [1000, 2000], reported distance 500 the computed
distance is 500 with `valid` and the tolerance check both true. -/
theorem claim2_directional_verifier :
    (∀ (r : Region) (gs ge rep cfg : Int),
      (verify_upstream_downstream r gs ge rep cfg).calculated_distance =
          (if r.midpoint < gs then gs - r.midpoint
           else if r.midpoint > ge then r.midpoint - ge else 0) ∧
      ((verify_upstream_downstream r gs ge rep cfg).valid = true ↔ rep ≤ cfg) ∧
      ((verify_upstream_downstream r gs ge rep cfg).distance_matches = true ↔
          |(verify_upstream_downstream r gs ge rep cfg).calculated_distance - rep| ≤ 10)) ∧
    (verify_upstream_downstream ⟨['c'], 400, 600, 500⟩ 1000 2000 500).calculated_distance = 500 ∧
    (verify_upstream_downstream ⟨['c'], 400, 600, 500⟩ 1000 2000 500).valid = true ∧
    (verify_upstream_downstream ⟨['c'], 400, 600, 500⟩ 1000 2000 500).distance_matches = true := by
  refine ⟨fun r gs ge rep cfg => ⟨rfl, ?_, ?_⟩, by decide, by decide, by decide⟩
  · simp [verify_upstream_downstream]
  · simp [verify_upstream_downstream]

/-- C5: the overlap verifier's `valid` flag holds iff `region.start < gene_end`
and `region.end > gene_start`; region [1500, 1600] overlaps gene [1000, 2000],
region [2100, 2200] does not. -/
theorem claim5_overlap_verifier :
    (∀ (r : Region) (gs ge : Int),
      (verify_overlap r gs ge).valid = true ↔ (r.start < ge ∧ r.«end» > gs)) ∧
    (verify_overlap ⟨['c'], 1500, 1600, 1550⟩ 1000 2000).valid = true ∧
    (verify_overlap ⟨['c'], 2100, 2200, 2150⟩ 1000 2000).valid = false := by
  refine ⟨fun r gs ge => ?_, by decide, by decide⟩
  simp [verify_overlap]

/-- C10: the verdict a sampled record receives — from either policy, every
field of the result dict — does not depend on the strand that the annotation
lookup returned: replacing the strand by any other value leaves the dispatch
result unchanged. -/
theorem claim10_strand_independent :
    ∀ (region : Region) (gs ge : Int) (strand₁ strand₂ : PyStr)
      (area : PyStr) (distance : Int),
      dispatchVerify region ⟨gs, ge, strand₁⟩ area distance =
        dispatchVerify region ⟨gs, ge, strand₂⟩ area distance :=
  fun _ _ _ _ _ _ _ => rfl

/-- C1: every record produced by `load_output` carries a key equal to the
underscore-joined concatenation of its `Region`, `Gene`, `Transcript` and
`Area` fields (the fourth key component, named "span-size field" by the
specification's data model); hence two records agreeing on those four fields
receive the same key. -/
theorem claim1_match_key :
    (∀ (rows : List MatchRecord) (r : MatchRecord) (k : String),
      (r, k) ∈ load_output rows →
      k = r.Region ++ "_" ++ r.Gene ++ "_" ++ r.Transcript ++ "_" ++ r.Area) ∧
    (∀ r₁ r₂ : MatchRecord, r₁.Region = r₂.Region → r₁.Gene = r₂.Gene →
      r₁.Transcript = r₂.Transcript → r₁.Area = r₂.Area → matchKey r₁ = matchKey r₂) := by
  constructor
  · intro rows r k hmem
    simp only [load_output, List.mem_map] at hmem
    obtain ⟨r', _, heq⟩ := hmem
    obtain ⟨rfl, rfl⟩ := Prod.mk.injEq .. ▸ heq
    rfl
  · intro r₁ r₂ h1 h2 h3 h4
    simp [matchKey, h1, h2, h3, h4]

/-- C1 witness: a concrete record's key from `load_output` is the stated
concatenation, and `recR1'` — agreeing with `recR1` on the four key fields but
not on `Distance` — receives the same key. -/
theorem claim1_match_key_witness :
    matchKey recR1 = recR1.Region ++ "_" ++ recR1.Gene ++ "_" ++
        recR1.Transcript ++ "_" ++ recR1.Area ∧
    matchKey recR1 = matchKey recR1' :=
  ⟨claim1_match_key.1 [recR1] recR1 (matchKey recR1) (by simp [load_output]),
   claim1_match_key.2 recR1 recR1' rfl rfl rfl rfl⟩

/-- C3: when each side's keys are duplicate-free, the exclusive and common
partitions of `analyze_pair` satisfy `|exclusive_a| + |common| = |a|`,
`|exclusive_b| + |common| = |b|`, and the common partition has the same
cardinality from either side's perspective. -/
theorem claim3_diff_counts :
    ∀ (a b : List MatchRecord),
      (a.map matchKey).Nodup → (b.map matchKey).Nodup →
      (exclusiveKeys a b).card + (commonKeys a b).card = a.length ∧
      (exclusiveKeys b a).card + (commonKeys b a).card = b.length ∧
      (commonKeys a b).card = (commonKeys b a).card := by
  intro a b ha hb
  have hca : (keySet a).card = a.length := by
    rw [keySet, List.toFinset_card_of_nodup ha, List.length_map]
  have hcb : (keySet b).card = b.length := by
    rw [keySet, List.toFinset_card_of_nodup hb, List.length_map]
  refine ⟨?_, ?_, ?_⟩
  · rw [exclusiveKeys, commonKeys, Finset.card_sdiff_add_card_inter, hca]
  · rw [exclusiveKeys, commonKeys, Finset.card_sdiff_add_card_inter, hcb]
  · rw [commonKeys, commonKeys, Finset.inter_comm]

/-- C3 witness: both sides of a concrete comparison have duplicate-free keys
and the left-hand count identity holds there. -/
theorem claim3_diff_counts_witness :
    (List.map matchKey [recR1, recR2]).Nodup ∧ (List.map matchKey [recR2]).Nodup ∧
    (exclusiveKeys [recR1, recR2] [recR2]).card + (commonKeys [recR1, recR2] [recR2]).card = 2 :=
  ⟨by decide, by decide,
   (claim3_diff_counts [recR1, recR2] [recR2] (by decide) (by decide)).1⟩

/-- C6: on an identifier built from any chromosome token (underscores allowed)
followed by two underscore-separated integer fields, `parse_region` splits
from the right, keeps the whole chromosome token, reads the two integers, and
derives the midpoint by floor division. -/
theorem claim6_parse_region :
    ∀ (chrom da db : PyStr) (a b : Int),
      '_' ∉ da → '_' ∉ db → parseIntPy da = some a → parseIntPy db = some b →
      parse_region (chrom ++ '_' :: (da ++ '_' :: db)) =
        some ⟨chrom, a, b, Int.fdiv (a + b) 2⟩ := by
  intro chrom da db a b hda hdb ha hb
  have hrev : (chrom ++ '_' :: (da ++ '_' :: db)).reverse
      = db.reverse ++ '_' :: (da.reverse ++ '_' :: chrom.reverse) := by
    simp [List.reverse_append, List.reverse_cons, List.append_assoc]
  have hdb' : ('_' : Char) ∉ db.reverse := by simpa using hdb
  have hda' : ('_' : Char) ∉ da.reverse := by simpa using hda
  have h1 := breakAtChar_append '_' db.reverse (da.reverse ++ '_' :: chrom.reverse) hdb'
  have h2 := breakAtChar_append '_' da.reverse chrom.reverse hda'
  simp only [parse_region, rsplitUnderscore2, hrev, h1, h2, List.reverse_reverse, ha, hb]

/-- C6 witness: `chr1_alt_100_200` parses to chromosome `chr1_alt`,
start 100, end 200, midpoint 150. -/
theorem claim6_parse_region_witness :
    parse_region ("chr1_alt".toList ++ '_' :: ("100".toList ++ '_' :: "200".toList)) =
      some ⟨"chr1_alt".toList, 100, 200, 150⟩ :=
  claim6_parse_region ("chr1_alt".toList) ("100".toList) ("200".toList) 100 200
    (by decide) (by decide) (by decide) (by decide)

/-- C7: the gene lookup returns exactly the coordinates extracted from the
first annotation line that passes its selection test (substring match on the
raw line, non-comment, at least nine fields, feature type `gene`), and it
reports not-found precisely when no line of the source passes the test. -/
theorem claim7_first_gene_match :
    ∀ (lines : List PyStr) (g : PyStr),
      (get_gene_coords lines g =
        match lines.find? (fun l => lineSelects g l) with
        | none => some none
        | some l => extractGene l) ∧
      (get_gene_coords lines g = some none ↔ ∀ l ∈ lines, lineSelects g l = false) := by
  intro lines g
  refine ⟨get_gene_coords_eq_find lines g, ?_⟩
  rw [get_gene_coords_eq_find lines g]
  rcases hf : lines.find? (fun l => lineSelects g l) with _ | l
  · simp only [List.find?_eq_none] at hf
    simpa using hf
  · have hmem := List.find?_some hf
    constructor
    · intro hex
      exact absurd hex (extractGene_ne_some_none l)
    · intro hall
      have := hall l (List.mem_of_find?_eq_some hf)
      rw [this] at hmem
      cases hmem

/-- C4: the stratified sampler of `analyze_pair` does not guarantee category
coverage: with hash values making one group's quota exceed its share, the
final truncation to `sample_size` drops a whole category even though
`sample_size` equals the number of distinct categories. Here, three records in
two categories sampled with target 2 yield the two `A_CAT` records and no
`B_CAT` record, contradicting the specified sampler-coverage property. -/
theorem claim4_sampler_coverage_bug :
    sampleStratified negHash 2 [recA1, recA2, recB1] = [recA1, recA2] ∧
    (List.map MatchRecord.Area [recA1, recA2, recB1]).dedup.length = 2 ∧
    "B_CAT" ∈ List.map MatchRecord.Area [recA1, recA2, recB1] ∧
    "B_CAT" ∉ List.map MatchRecord.Area (sampleStratified negHash 2 [recA1, recA2, recB1]) ∧
    (sampleStratified negHash 2 [recA1, recA2, recB1]).length ≤ 2 := by
  decide

/-- C8 counterexample: a run whose single verified sample is VALID — so all
sampled records are valid — prints the mixed conclusion, not the all-valid
one, because `main` compares `valid_count` against the constant 10. -/
theorem claim8_trichotomy_counterexample :
    processAll [gtfLineX] [rowX] = some [Outcome.valid] ∧
    mainConclusion [gtfLineX] [rowX] = some Conclusion.mixed ∧
    Conclusion.mixed ≠ Conclusion.allValid := by
  decide

/-- C8 (amended): when the loop verifies exactly ten samples and none of them
is a not-found record, the printed conclusion is an exact trichotomy over
those verified records: all-valid iff every verdict is VALID, all-invalid iff
every verdict is INVALID, mixed iff both verdicts occur. -/
theorem claim8_conclusion_trichotomy :
    ∀ (gtf : List PyStr) (samples : List (List PyStr)) (outs : List Outcome),
      processAll gtf samples = some outs →
      outs.length = 10 → outs.count .notFound = 0 →
      ((mainConclusion gtf samples = some .allValid ↔ ∀ o ∈ outs, o = .valid) ∧
       (mainConclusion gtf samples = some .allInvalid ↔ ∀ o ∈ outs, o = .invalid) ∧
       (mainConclusion gtf samples = some .mixed ↔
         ((∃ o ∈ outs, o = .valid) ∧ ∃ o ∈ outs, o = .invalid))) := by
  intro gtf samples outs hpa hlen hnf
  have hmc : mainConclusion gtf samples =
      some (if validCount outs = 10 then .allValid
            else if validCount outs = 0 then .allInvalid else .mixed) := by
    rw [mainConclusion, hpa, Option.map_some']
  have hnotf : Outcome.notFound ∉ outs := by
    rw [← List.count_eq_zero]
    exact hnf
  have hval10 : validCount outs = 10 ↔ ∀ o ∈ outs, o = .valid := by
    rw [validCount, ← hlen, List.count_eq_length]
    exact ⟨fun h o ho => (h o ho).symm, fun h o ho => (h o ho).symm⟩
  have hval0 : validCount outs = 0 ↔ Outcome.valid ∉ outs := by
    rw [validCount, List.count_eq_zero]
  have hallinv : Outcome.valid ∉ outs ↔ ∀ o ∈ outs, o = .invalid := by
    constructor
    · intro hv o ho
      cases o with
      | notFound => exact absurd ho hnotf
      | valid => exact absurd ho hv
      | invalid => rfl
    · intro h hv
      cases h _ hv
  have hne : outs ≠ [] := by
    intro h
    rw [h] at hlen
    cases hlen
  rw [hmc]
  by_cases h10 : validCount outs = 10
  · have hall := hval10.mp h10
    have hvmem : Outcome.valid ∈ outs := by
      rcases List.exists_mem_of_ne_nil outs hne with ⟨o, ho⟩
      exact hall o ho ▸ ho
    rw [if_pos h10]
    refine ⟨iff_of_true rfl hall, ?_, ?_⟩
    · constructor
      · intro h
        cases h
      · intro h
        cases h _ hvmem
    · constructor
      · intro h
        cases h
      · rintro ⟨-, o, ho, hoinv⟩
        cases (hall o ho).symm.trans hoinv
  · rw [if_neg h10]
    by_cases h0 : validCount outs = 0
    · have hvnot := hval0.mp h0
      rw [if_pos h0]
      refine ⟨?_, iff_of_true rfl (hallinv.mp hvnot), ?_⟩
      · constructor
        · intro h
          cases h
        · intro h
          exact absurd (hval10.mpr h) h10
      · constructor
        · intro h
          cases h
        · rintro ⟨⟨o, ho, hov⟩, -⟩
          exact absurd (hov ▸ ho) hvnot
    · have hvmem : Outcome.valid ∈ outs := by
        by_contra hv
        exact h0 (hval0.mpr hv)
      have hinv : ∃ o ∈ outs, o = Outcome.invalid := by
        by_contra hno
        push_neg at hno
        refine h10 (hval10.mpr fun o ho => ?_)
        cases o with
        | notFound => exact absurd ho hnotf
        | valid => rfl
        | invalid => exact absurd rfl (hno _ ho)
      rw [if_neg h0]
      refine ⟨?_, ?_, iff_of_true rfl ⟨⟨_, hvmem, rfl⟩, hinv⟩⟩
      · constructor
        · intro h
          cases h
        · intro h
          exact absurd (hval10.mpr h) h10
      · constructor
        · intro h
          cases h
        · intro h
          exact absurd (hval0.mpr (hallinv.mpr h)) h0

/-- C8 witness: ten verified valid samples produce the all-valid conclusion. -/
theorem claim8_conclusion_trichotomy_witness :
    processAll [gtfLineX] (List.replicate 10 rowX) = some (List.replicate 10 Outcome.valid) ∧
    mainConclusion [gtfLineX] (List.replicate 10 rowX) = some Conclusion.allValid :=
  ⟨by decide,
   ((claim8_conclusion_trichotomy [gtfLineX] (List.replicate 10 rowX)
        (List.replicate 10 Outcome.valid) (by decide) (by decide) (by decide)).1).mpr
     (by decide)⟩

/-- C9: a sampled record whose gene the annotation source lacks yields the
distinct not-found outcome — neither VALID nor INVALID — and such an outcome
changes neither the valid tally nor the invalid tally. -/
theorem claim9_not_found :
    ∀ (gtf : List PyStr) (row : List PyStr) (rs g a d : PyStr) (dist : Int) (r : Region),
      row.get? 0 = some rs → row.get? 2 = some g → row.get? 5 = some a →
      row.get? 6 = some d → distanceField d = some dist → parse_region rs = some r →
      get_gene_coords gtf g = some none →
      processSample gtf row = some .notFound ∧
      Outcome.notFound ≠ .valid ∧ Outcome.notFound ≠ .invalid ∧
      ∀ rest : List Outcome,
        validCount (.notFound :: rest) = validCount rest ∧
        invalidCount (.notFound :: rest) = invalidCount rest := by
  intro gtf row rs g a d dist r h0 h2 h5 h6 hd hr hg
  refine ⟨?_, by decide, by decide, fun rest => ⟨?_, ?_⟩⟩
  · simp only [processSample, h0, h2, h5, h6, hd, hr, hg]
  · simp [validCount, List.count_cons]
  · simp [invalidCount, List.count_cons]

/-- C9 witness: against an annotation source lacking `GENEY`, the concrete
row `rowY` gets the not-found outcome, and the tallies ignore it. -/
theorem claim9_not_found_witness :
    processSample [gtfLineX] rowY = some .notFound ∧
    Outcome.notFound ≠ .valid ∧ Outcome.notFound ≠ .invalid ∧
    ∀ rest : List Outcome,
      validCount (.notFound :: rest) = validCount rest ∧
      invalidCount (.notFound :: rest) = invalidCount rest :=
  claim9_not_found [gtfLineX] rowY ("chr1_100_200".toList) ("GENEY".toList)
    ("UPSTREAM".toList) ("5".toList) 5 ⟨"chr1".toList, 100, 200, 150⟩
    rfl rfl rfl rfl (by decide) (by decide) (by decide)

end RGMatch
